import Mathlib

/-!
A shallow embedding of the `mcp-text-mirror` service.

Text is modelled at the data-model granularity of the spec: an immutable
sequence of Unicode code points (arbitrary naturals, so malformed input at
the byte boundary — lone surrogates, out-of-range values — is representable).
The boundary handler `handleReverse`, `wrapError`, and `GetServiceVersion`
are embedded from `src/main.go`.  The grapheme segmentation engine
(`uniseg`) is an external library whose sources are not part of this
repository, so it is modelled from the spec (UAX #29 boundary rules of
section 4.1 and the reversal contract of section 4.2).
-/

namespace TextMirror

/-- A Unicode code point.  The spec's data model treats text as an immutable
sequence of code points; using `Nat` keeps every value (including invalid
scalar values produced from malformed UTF-8) representable. -/
abbrev CodePoint := Nat

/-- Modelled from the spec: the Unicode grapheme-cluster boundary property
categories of UAX #29 named in section 4.1 (Control, Extend, SpacingMark,
Prepend, ZWJ, Regional_Indicator, the Hangul classes, and
Extended_Pictographic for the emoji rules).  The segmentation engine itself
(the external `uniseg` library) is not part of this repository's sources. -/
inductive GCProp where
  | other
  | cr
  | lf
  | control
  | extend
  | zwj
  | ri
  | prepend
  | spacingMark
  | hangulL
  | hangulV
  | hangulT
  | hangulLV
  | hangulLVT
  | extPict
deriving DecidableEq

/-- Modelled from the spec: classification of code points into the boundary
property categories, "obtainable from the Unicode Character Database"
(section 4.1).  The ranges cover the general categories plus every code
point exercised by the repository's test corpus: C0/C1 controls, combining
marks, ZWJ/ZWNJ, variation selectors, keycap combiner, skin-tone modifiers,
tag characters, regional indicators, Prepend-class marks, Thai dependent
vowels, Hangul jamo and syllables, and the emoji blocks. -/
def gcProp (c : CodePoint) : GCProp :=
  if c = 0xD then .cr
  else if c = 0xA then .lf
  else if c < 0x20 ∨ c = 0x7F ∨ (0x80 ≤ c ∧ c ≤ 0x9F) then .control
  else if c = 0x200D then .zwj
  else if 0x1F1E6 ≤ c ∧ c ≤ 0x1F1FF then .ri
  else if (0x600 ≤ c ∧ c ≤ 0x605) ∨ c = 0x6DD ∨ c = 0x70F ∨ c = 0x8E2 ∨ c = 0xD4E then
    .prepend
  else if (0x300 ≤ c ∧ c ≤ 0x36F) ∨ (0x483 ≤ c ∧ c ≤ 0x489) ∨ (0x591 ≤ c ∧ c ≤ 0x5BD)
      ∨ (0x610 ≤ c ∧ c ≤ 0x61A) ∨ (0x64B ≤ c ∧ c ≤ 0x65F) ∨ c = 0x670
      ∨ c = 0xE31 ∨ (0xE34 ≤ c ∧ c ≤ 0xE3A) ∨ (0xE47 ≤ c ∧ c ≤ 0xE4E)
      ∨ (0x1AB0 ≤ c ∧ c ≤ 0x1AFF) ∨ (0x1DC0 ≤ c ∧ c ≤ 0x1DFF)
      ∨ (0x20D0 ≤ c ∧ c ≤ 0x20F0) ∨ (0xFE00 ≤ c ∧ c ≤ 0xFE0F)
      ∨ (0xFE20 ≤ c ∧ c ≤ 0xFE2F) ∨ c = 0x200C
      ∨ (0x1F3FB ≤ c ∧ c ≤ 0x1F3FF) ∨ (0xE0020 ≤ c ∧ c ≤ 0xE007F) then .extend
  else if c = 0xE33 ∨ c = 0xEB3 then .spacingMark
  else if (0x1100 ≤ c ∧ c ≤ 0x115F) ∨ (0xA960 ≤ c ∧ c ≤ 0xA97C) then .hangulL
  else if (0x1160 ≤ c ∧ c ≤ 0x11A7) ∨ (0xD7B0 ≤ c ∧ c ≤ 0xD7C6) then .hangulV
  else if (0x11A8 ≤ c ∧ c ≤ 0x11FF) ∨ (0xD7CB ≤ c ∧ c ≤ 0xD7FB) then .hangulT
  else if 0xAC00 ≤ c ∧ c ≤ 0xD7A3 then
    (if (c - 0xAC00) % 28 = 0 then .hangulLV else .hangulLVT)
  else if (0x2600 ≤ c ∧ c ≤ 0x27BF) ∨ (0x2B00 ≤ c ∧ c ≤ 0x2BFF)
      ∨ (0x1F000 ≤ c ∧ c ≤ 0x1FAFF) then .extPict
  else .other

/-- Length of the run of consecutive Regional_Indicator code points at the
head of the (reversed) list of already-consumed code points; rules GB12/GB13
break a flag sequence after every even-length run. -/
def riRunLen : List CodePoint → Nat
  | [] => 0
  | c :: rest => if gcProp c = .ri then riRunLen rest + 1 else 0

/-- Looking backwards from just before a ZWJ: skip Extend code points and
check that an Extended_Pictographic opened the sequence (context of rule
GB11, `ExtPict Extend* ZWJ × ExtPict`). -/
def extendThenPict : List CodePoint → Bool
  | [] => false
  | c :: rest =>
    match gcProp c with
    | .extend => extendThenPict rest
    | .extPict => true
    | _ => false

/-- Modelled from the spec: the default grapheme-cluster boundary rules of
UAX #29 listed in section 4.1.  `prevRev` is the reversed list of code
points already consumed (most recent first); the result is `true` when no
boundary falls before the next code point `c` (GB3, GB4, GB5, GB6, GB7,
GB8, GB9, GB9a, GB9b, GB11, GB12/GB13, otherwise break by GB999). -/
def noBreak : List CodePoint → CodePoint → Bool
  | [], _ => true
  | p :: rest, c =>
    let pp := gcProp p
    let cp := gcProp c
    if pp = .cr ∧ cp = .lf then true
    else if pp = .control ∨ pp = .cr ∨ pp = .lf then false
    else if cp = .control ∨ cp = .cr ∨ cp = .lf then false
    else if pp = .hangulL ∧
        (cp = .hangulL ∨ cp = .hangulV ∨ cp = .hangulLV ∨ cp = .hangulLVT) then true
    else if (pp = .hangulLV ∨ pp = .hangulV) ∧ (cp = .hangulV ∨ cp = .hangulT) then true
    else if (pp = .hangulLVT ∨ pp = .hangulT) ∧ cp = .hangulT then true
    else if cp = .extend ∨ cp = .zwj then true
    else if cp = .spacingMark then true
    else if pp = .prepend then true
    else if cp = .extPict ∧ pp = .zwj ∧ extendThenPict rest then true
    else if cp = .ri ∧ pp = .ri ∧ riRunLen (p :: rest) % 2 = 1 then true
    else false

/-- Single linear pass of the segmenter: `prevRev` is the reversed consumed
prefix, `curRev` the reversed current (non-empty) cluster, and the third
argument the remaining input. -/
def segGo (prevRev curRev : List CodePoint) : List CodePoint → List (List CodePoint)
  | [] => [curRev.reverse]
  | c :: rest =>
    if noBreak prevRev c then segGo (c :: prevRev) (c :: curRev) rest
    else curRev.reverse :: segGo (c :: prevRev) [c] rest

/-- Modelled from the spec: the grapheme segmenter of section 4.1 — a finite
sequence of cluster slices such that their concatenation equals the input
exactly and no cluster is empty (zero clusters for empty input). -/
def graphemeClusters : List CodePoint → List (List CodePoint)
  | [] => []
  | c :: rest => segGo [c] [c] rest

/-- Modelled from the spec: `reverse(text)` = clusters(text) read
back-to-front, each cluster's internal code points unchanged, then
re-concatenated (section 4.2).  Stands in for `uniseg.ReverseString`, whose
source is not part of this repository. -/
def ReverseString (t : List CodePoint) : List CodePoint :=
  ((graphemeClusters t).reverse).flatten

/-- Number of UTF-8 bytes a code point occupies, so that byte-length claims
can be stated over the code-point embedding. -/
def utf8Len (c : CodePoint) : Nat :=
  if c < 0x80 then 1 else if c < 0x800 then 2 else if c < 0x10000 then 3 else 4

/-- Total UTF-8 byte length of a text. -/
def byteLen (t : List CodePoint) : Nat :=
  (t.map utf8Len).sum

/-- Go error values as observed by this program: `context.Canceled`,
`context.DeadlineExceeded`, plain errors, and the wrapping produced by
`fmt.Errorf` with the wrap verb (used by `wrapError` in src/main.go). -/
inductive GoError where
  | canceled
  | deadlineExceeded
  | base (msg : String)
  | wrap (msg : String) (inner : GoError)
deriving DecidableEq

/-- Go's `errors.Is`: an error matches a target if it equals it or its
wrapped chain reaches it. -/
def errorIs (e target : GoError) : Bool :=
  match e with
  | .wrap m inner => decide (GoError.wrap m inner = target) || errorIs inner target
  | e0 => decide (e0 = target)

/-- Embeds `wrapError` from src/main.go: returns `none` for a nil error,
otherwise wraps it with the message.  (`handleReverse` passes no format
arguments, so the `fmt.Sprintf` varargs path is not exercised.) -/
def wrapError (err : Option GoError) (msg : String) : Option GoError :=
  match err with
  | none => none
  | some e => some (GoError.wrap msg e)

/-- A Go `context.Context` restricted to what `handleReverse` observes:
`ctx.Err()`, which is `none` exactly when the context is not done. -/
structure Context where
  errState : Option GoError
deriving DecidableEq

/-- Embeds `MirrorInput` from src/main.go. -/
structure MirrorInput where
  text : List CodePoint
deriving DecidableEq

/-- Embeds `MirrorOutput` from src/main.go. -/
structure MirrorOutput where
  text : List CodePoint
deriving DecidableEq

/-- The triple returned by the handler, plus the debug-log side channel made
explicit (pairs of input and output text passed to `debugLog`).  The
`*mcp.CallToolResult` component is always nil in this program, modelled as
`Option Unit`. -/
structure HandlerResult where
  meta : Option Unit
  out : MirrorOutput
  err : Option GoError
  log : List (List CodePoint × List CodePoint)
deriving DecidableEq

/-- The message `handleReverse` wraps a context error with. -/
def requestCanceledMsg : String := "request canceled"

/-- Embeds `handleReverse` from src/main.go: if the context is done the
handler returns the zero-valued output and the wrapped context error
without invoking the core; otherwise it reverses the text, optionally logs
(the debug flag stands for `IsDebugMode()`), and returns a nil error.  The
function is total by construction, matching the no-panic contract. -/
def handleReverse (dbg : Bool) (ctx : Context) (input : MirrorInput) : HandlerResult :=
  match ctx.errState with
  | some e => ⟨none, ⟨[]⟩, wrapError (some e) requestCanceledMsg, []⟩
  | none =>
    let outputText := ReverseString input.text
    ⟨none, ⟨outputText⟩, none, if dbg then [(input.text, outputText)] else []⟩

/-- Embeds the `serviceVersion` constant from src/main.go. -/
def serviceVersion : String := "(devel)"

/-- Embeds the `revisionLen` constant from src/main.go. -/
def revisionLen : Nat := 7

/-- Embeds `debug.BuildSetting` as used by `GetServiceVersion`. -/
structure BuildSetting where
  key : String
  value : String

/-- Embeds the part of `debug.BuildInfo` that `GetServiceVersion` reads. -/
structure BuildInfo where
  mainVersion : String
  settings : List BuildSetting

/-- Go slicing `s[:k]`: defined exactly when `k` is in bounds (Go panics
otherwise, modelled as `none`).  Code points stand in for bytes here; the
in-bounds guard `min(len(revision), revisionLen)` behaves identically. -/
def sliceTo (s : String) (k : Nat) : Option String :=
  if k ≤ s.length then some (String.mk (s.toList.take k)) else none

/-- The default revision value in `GetServiceVersion`. -/
def unknownRevision : String := "unknown"

/-- The revision-search loop of `GetServiceVersion`: the first build setting
whose key is `vcs.revision` and whose value is non-empty, else the default. -/
def findRevision (settings : List BuildSetting) : String :=
  match settings.find? (fun s => s.key == "vcs.revision" && s.value != "") with
  | some s => s.value
  | none => unknownRevision

/-- The guarded short-revision slice `revision[:min(len(revision), revisionLen)]`
from src/main.go. -/
def shortRevision (revision : String) : Option String :=
  sliceTo revision (min revision.length revisionLen)

/-- Embeds `GetServiceVersion` from src/main.go, with the injected
`debugReadBuildInfo` collaborator made an explicit argument (`none` models
`ok == false`).  The result is `Option String` so that the in-bounds
question of the revision slice is part of the statement. -/
def GetServiceVersion : Option BuildInfo → Option String
  | none =>
    (shortRevision unknownRevision).map (fun r => r ++ " " ++ serviceVersion)
  | some info =>
    let version := if info.mainVersion = "" then serviceVersion else info.mainVersion
    let revision := findRevision info.settings
    if version = serviceVersion then
      (shortRevision revision).map (fun r => r ++ " " ++ version)
    else
      (shortRevision revision).map (fun r => version ++ " (" ++ r ++ ")")

/-! ### Helper lemmas -/

theorem segGo_flatten (rest : List CodePoint) :
    ∀ prevRev curRev, (segGo prevRev curRev rest).flatten = curRev.reverse ++ rest := by
  induction rest with
  | nil =>
    intro prevRev curRev
    simp [segGo]
  | cons c rest ih =>
    intro prevRev curRev
    by_cases h : noBreak prevRev c = true
    · simp [segGo, h, ih]
    · simp [segGo, h, ih]

theorem graphemeClusters_flatten (t : List CodePoint) :
    (graphemeClusters t).flatten = t := by
  cases t with
  | nil => simp [graphemeClusters]
  | cons c rest => simp [graphemeClusters, segGo_flatten]

theorem reverse_flatten_perm {α : Type} (l : List (List α)) :
    l.reverse.flatten.Perm l.flatten := by
  induction l with
  | nil => simp
  | cons a l ih =>
    simp only [List.reverse_cons, List.flatten_append, List.flatten_cons,
      List.flatten_nil, List.append_nil]
    exact (List.perm_append_comm).trans (ih.append_left a)

theorem reverseString_perm (t : List CodePoint) : (ReverseString t).Perm t := by
  have h := reverse_flatten_perm (graphemeClusters t)
  rwa [graphemeClusters_flatten] at h

theorem errorIs_self (e : GoError) : errorIs e e = true := by
  cases e <;> simp [errorIs]

theorem shortRevision_spec (r : String) :
    ∃ p, shortRevision r = some p ∧ p.length ≤ revisionLen := by
  refine ⟨String.mk (r.toList.take (min r.length revisionLen)), ?_, ?_⟩
  · unfold shortRevision sliceTo
    rw [if_pos (Nat.min_le_left _ _)]
  · have hlen : (String.mk (r.toList.take (min r.length revisionLen))).length
        = (r.toList.take (min r.length revisionLen)).length := rfl
    rw [hlen, List.length_take]
    have h7 : revisionLen = 7 := rfl
    omega

theorem getServiceVersion_total (bi : Option BuildInfo) :
    ∃ s, GetServiceVersion bi = some s ∧ s.length ≠ 0 := by
  cases bi with
  | none => exact ⟨"unknown (devel)", by decide, by decide⟩
  | some info =>
    obtain ⟨p, hp, _⟩ := shortRevision_spec (findRevision info.settings)
    simp only [GetServiceVersion]
    by_cases hv : (if info.mainVersion = "" then serviceVersion else info.mainVersion)
        = serviceVersion
    · rw [if_pos hv, hp]
      refine ⟨_, rfl, ?_⟩
      have h1 : (" " : String).length = 1 := rfl
      simp only [String.length_append]
      omega
    · rw [if_neg hv, hp]
      refine ⟨_, rfl, ?_⟩
      have h1 : (" (" : String).length = 2 := rfl
      simp only [String.length_append]
      omega

/-! ### Claims -/

/-- C1: for every input, the mirror result equals the grapheme clusters of
the input re-concatenated in reverse order with each cluster's internal
code-point sequence unchanged, and concatenating the clusters in original
order reproduces the input exactly. -/
theorem reverse_is_clusters_reversed (t : List CodePoint) :
    ReverseString t = ((graphemeClusters t).reverse).flatten ∧
    (graphemeClusters t).flatten = t :=
  ⟨rfl, graphemeClusters_flatten t⟩

/-- C2 counterexample: for the input `[0x301, 65]` (a combining acute with
no base, then `A`) the reversal yields `[65, 0x301]`, which re-segments as a
single cluster, so the multiset of grapheme clusters of `reverse(text)` is
not the multiset of clusters of `text`. -/
theorem clusters_multiset_counterexample :
    ¬ ((graphemeClusters (ReverseString [769, 65]) : Multiset (List CodePoint)) =
        (graphemeClusters [769, 65] : Multiset (List CodePoint))) := by
  intro h
  have h1 : graphemeClusters (ReverseString [769, 65]) = [[65, 769]] := by decide
  have h2 : graphemeClusters [769, 65] = [[769], [65]] := by decide
  rw [h1, h2] at h
  have hc := congrArg Multiset.card h
  simp at hc

/-- C2 amended: the output is assembled from the input's cluster list in
reverse order (a permutation of the input's clusters, none mutated), so the
output's code points are a permutation of the input's and the total UTF-8
byte length is always preserved — although re-segmenting the output may
regroup code points into different clusters. -/
theorem reverse_preserves_content (t : List CodePoint) :
    ((graphemeClusters t).reverse).Perm (graphemeClusters t) ∧
    (ReverseString t).Perm t ∧
    byteLen (ReverseString t) = byteLen t := by
  refine ⟨List.reverse_perm _, reverseString_perm t, ?_⟩
  unfold byteLen
  exact ((reverseString_perm t).map utf8Len).sum_eq

/-- C3: the reversal operation is total — for every input text (any
code-point sequence, however degenerate) and any non-done context, the
handler returns a nil error and the reversed text; the embedding is a total
function, matching the no-panic contract. -/
theorem handleReverse_total (dbg : Bool) (ctx : Context) (input : MirrorInput)
    (h : ctx.errState = none) :
    (handleReverse dbg ctx input).err = none ∧
    (handleReverse dbg ctx input).out = ⟨ReverseString input.text⟩ := by
  unfold handleReverse
  rw [h]
  exact ⟨rfl, rfl⟩

/-- Witness for C3 at the concrete input `"Hi"` with a fresh context. -/
theorem handleReverse_total_witness :
    (handleReverse false ⟨none⟩ ⟨[72, 105]⟩).err = none ∧
    (handleReverse false ⟨none⟩ ⟨[72, 105]⟩).out = ⟨ReverseString [72, 105]⟩ :=
  handleReverse_total false ⟨none⟩ ⟨[72, 105]⟩ rfl

/-- C4: if the context is already done when the handler is invoked, it
returns the zero-valued output together with a non-nil error wrapping the
context's error (so the core reversal is never performed and nothing is
logged); if the context is not done, no cancellation error is returned. -/
theorem handleReverse_canceled (dbg : Bool) (ctx : Context) (input : MirrorInput) :
    (∀ e, ctx.errState = some e →
      handleReverse dbg ctx input =
        ⟨none, ⟨[]⟩, some (GoError.wrap requestCanceledMsg e), []⟩ ∧
      errorIs (GoError.wrap requestCanceledMsg e) e = true) ∧
    (ctx.errState = none → (handleReverse dbg ctx input).err = none) := by
  constructor
  · intro e he
    constructor
    · unfold handleReverse
      rw [he]
      rfl
    · simp [errorIs, errorIs_self]
  · intro h
    unfold handleReverse
    rw [h]

/-- Witness for C4 at a concretely canceled context. -/
theorem handleReverse_canceled_witness :
    handleReverse false ⟨some GoError.canceled⟩ ⟨[72]⟩ =
      ⟨none, ⟨[]⟩, some (GoError.wrap requestCanceledMsg GoError.canceled), []⟩ ∧
    errorIs (GoError.wrap requestCanceledMsg GoError.canceled) GoError.canceled = true :=
  (handleReverse_canceled false ⟨some GoError.canceled⟩ ⟨[72]⟩).1 GoError.canceled rfl

/-- C5: double reversal is not an involution in general — the input
`[0x301, 65]` comes back as `[65, 0x301]` because the second segmentation
groups the combining mark with the base — while reverse applied twice is
deterministic: it is a function of the input alone. -/
theorem doubleReverse_not_involutive :
    (∃ t : List CodePoint, ReverseString (ReverseString t) ≠ t) ∧
    (∀ t₁ t₂ : List CodePoint, t₁ = t₂ →
      ReverseString (ReverseString t₁) = ReverseString (ReverseString t₂)) := by
  constructor
  · refine ⟨[769, 65], ?_⟩
    decide
  · intro t₁ t₂ h
    rw [h]

/-- Witness for C5's determinism part at a concrete input. -/
theorem doubleReverse_not_involutive_witness :
    ReverseString (ReverseString [65, 66]) = ReverseString (ReverseString [65, 66]) :=
  doubleReverse_not_involutive.2 [65, 66] [65, 66] rfl

/-- C6: determinism as a noninterference property — the output depends only
on the input text: any two invocations on the same input, under any debug
environments and any non-done contexts, return identical outputs and
identical (nil) errors. -/
theorem handleReverse_deterministic (dbg₁ dbg₂ : Bool) (ctx₁ ctx₂ : Context)
    (input : MirrorInput) (h₁ : ctx₁.errState = none) (h₂ : ctx₂.errState = none) :
    (handleReverse dbg₁ ctx₁ input).out = (handleReverse dbg₂ ctx₂ input).out ∧
    (handleReverse dbg₁ ctx₁ input).err = (handleReverse dbg₂ ctx₂ input).err := by
  unfold handleReverse
  rw [h₁, h₂]
  exact ⟨rfl, rfl⟩

/-- Witness for C6 with differing debug environments on the same input. -/
theorem handleReverse_deterministic_witness :
    (handleReverse true ⟨none⟩ ⟨[72, 105]⟩).out = (handleReverse false ⟨none⟩ ⟨[72, 105]⟩).out ∧
    (handleReverse true ⟨none⟩ ⟨[72, 105]⟩).err = (handleReverse false ⟨none⟩ ⟨[72, 105]⟩).err :=
  handleReverse_deterministic true false ⟨none⟩ ⟨none⟩ ⟨[72, 105]⟩ rfl rfl

/-- C7: edge-case fixed points — reversing the empty text yields the empty
text, and any input that is exactly one grapheme cluster is returned
unchanged. -/
theorem reverse_edge_fixed_points :
    ReverseString [] = [] ∧
    ∀ (t c : List CodePoint), graphemeClusters t = [c] → ReverseString t = t := by
  constructor
  · rfl
  · intro t c h
    have ht : c = t := by
      have hf := graphemeClusters_flatten t
      rw [h] at hf
      simpa using hf
    unfold ReverseString
    rw [h]
    simpa using ht

/-- Witness for C7's single-cluster part at `e` + combining acute. -/
theorem reverse_edge_fixed_points_witness :
    graphemeClusters [101, 769] = [[101, 769]] ∧ ReverseString [101, 769] = [101, 769] :=
  ⟨by decide, reverse_edge_fixed_points.2 [101, 769] [101, 769] (by decide)⟩

/-- C8: combining-mark cohesion — `e` + combining acute followed by `a` +
combining grave segments into the two expected clusters and reverses to
`a` + grave then `e` + acute, each mark staying attached to its base. -/
theorem combining_mark_cohesion :
    graphemeClusters [101, 769, 97, 768] = [[101, 769], [97, 768]] ∧
    ReverseString [101, 769, 97, 768] = [97, 768, 101, 769] :=
  ⟨by decide, by decide⟩

/-- C9: multi-codepoint cluster cohesion — for every input made of two
regional-indicator flag clusters F1 = [a, b] followed by F2 = [c, d], the
input segments into exactly those two 2-codepoint clusters and reverses to
F2 followed by F1 as whole units; the four regional-indicator code points
are never recombined into different pairs. -/
theorem flag_cluster_cohesion (a b c d : CodePoint)
    (ha : gcProp a = .ri) (hb : gcProp b = .ri)
    (hc : gcProp c = .ri) (hd : gcProp d = .ri) :
    graphemeClusters [a, b, c, d] = [[a, b], [c, d]] ∧
    ReverseString [a, b, c, d] = [c, d, a, b] := by
  constructor
  · simp [graphemeClusters, segGo, noBreak, riRunLen, extendThenPict, ha, hb, hc, hd]
  · simp [ReverseString, graphemeClusters, segGo, noBreak, riRunLen, extendThenPict,
      ha, hb, hc, hd]

/-- Witness for C9 at the concrete flag pair JP then US. -/
theorem flag_cluster_cohesion_witness :
    (gcProp 0x1F1EF = .ri ∧ gcProp 0x1F1F5 = .ri ∧
      gcProp 0x1F1FA = .ri ∧ gcProp 0x1F1F8 = .ri) ∧
    graphemeClusters [0x1F1EF, 0x1F1F5, 0x1F1FA, 0x1F1F8] =
      [[0x1F1EF, 0x1F1F5], [0x1F1FA, 0x1F1F8]] ∧
    ReverseString [0x1F1EF, 0x1F1F5, 0x1F1FA, 0x1F1F8] =
      [0x1F1FA, 0x1F1F8, 0x1F1EF, 0x1F1F5] :=
  ⟨⟨by decide, by decide, by decide, by decide⟩,
    flag_cluster_cohesion 0x1F1EF 0x1F1F5 0x1F1FA 0x1F1F8
      (by decide) (by decide) (by decide) (by decide)⟩

/-- C10: `GetServiceVersion` never panics and always returns a non-empty
string: without build info it returns `unknown (devel)`, and for every
revision value the displayed slice is guarded by `min(len(revision), 7)`,
hence in bounds and at most 7 characters. -/
theorem getServiceVersion_safe :
    GetServiceVersion none = some ("unknown (devel)") ∧
    (∀ bi, ∃ s, GetServiceVersion bi = some s ∧ s.length ≠ 0) ∧
    (∀ r : String, ∃ p, shortRevision r = some p ∧ p.length ≤ revisionLen) :=
  ⟨by decide, getServiceVersion_total, shortRevision_spec⟩

end TextMirror
